import Mathlib

/-!
Shallow embedding of `generate_resumes.py`, a script that renders synthetic
resume pages with ten quality-variation presets and collects a manifest
(one JSON record per generated file).

Python's process-wide pseudorandom generator is modelled as an oracle state:
a stream of raw natural-number draws (for `random.randint` / `random.choice`)
and a stream of rational draws in `[0,1)` (for `random.uniform`), together
with a cursor.  Each library call consumes one position of the cursor, so the
side effect of every call on the random source is visible in the state.
-/

namespace GenResumes

/-- The process-wide random source: `natGen` feeds discrete draws
(`random.randint`, `random.choice`), `uniGen` feeds unit-interval draws
(`random.uniform`), and `idx` is the cursor advanced by every call. -/
structure RandState where
  natGen : Nat → Nat
  uniGen : Nat → ℚ
  idx : Nat

/-- Python `random.randint(a, b)`: inclusive-range integer draw.  The raw draw is
reduced modulo the size of the range, so the result is always in `[a, b]`
whenever `a ≤ b`. -/
def randInt (a b : Nat) (s : RandState) : Nat × RandState :=
  (a + s.natGen s.idx % (b + 1 - a), ⟨s.natGen, s.uniGen, s.idx + 1⟩)

/-- Python `random.choice(l)`: uniform choice over a non-empty list (the raw draw is
reduced modulo the list length; `d` is an unreachable default for `[]`). -/
def randChoice {α : Type} (l : List α) (d : α) (s : RandState) : α × RandState :=
  (l.getD (s.natGen s.idx % l.length) d, ⟨s.natGen, s.uniGen, s.idx + 1⟩)

/-- Python `random.uniform(a, b) = a + (b-a)*random.random()` with
`random.random() ∈ [0,1)`. -/
def randUniform (a b : ℚ) (s : RandState) : ℚ × RandState :=
  (a + (b - a) * s.uniGen s.idx, ⟨s.natGen, s.uniGen, s.idx + 1⟩)

/-- The `VariationType` enum: the ten quality-variation presets. -/
inductive VariationType where
  | STANDARD
  | HANDWRITTEN
  | FADED
  | TILTED
  | NOISY
  | BLURRED
  | HEAVY_LINES
  | SMALL_FONT
  | MIXED_FONT
  | COMPLEX
deriving DecidableEq, Repr

/-- Enum payload `VariationType.value`: the string payload of each enum member. -/
def VariationType.value : VariationType → String
  | .STANDARD => "standard"
  | .HANDWRITTEN => "handwritten"
  | .FADED => "faded"
  | .TILTED => "tilted"
  | .NOISY => "noisy"
  | .BLURRED => "blurred"
  | .HEAVY_LINES => "heavy_lines"
  | .SMALL_FONT => "small_font"
  | .MIXED_FONT => "mixed_font"
  | .COMPLEX => "complex"

/-- RGB colour triple, components 0–255. -/
abbrev Color := Nat × Nat × Nat

/-- Dataclass `ResumeData`: one synthetic person's field values. -/
structure ResumeData where
  name : String
  birth_date : String
  address : String
deriving DecidableEq, Repr

/-- Dataclass `VariationConfig`: the resolved drawing/degradation parameters
for one preset instance (defaults as in the Python dataclass). -/
structure VariationConfig where
  variation_type : VariationType
  font_size : Nat := 12
  text_color : Color := (0, 0, 0)
  rotation_angle : ℚ := 0.0
  add_noise : Bool := false
  blur_radius : ℚ := 0.0
  line_thickness : Nat := 1
  use_gothic : Bool := false
deriving DecidableEq, Repr

/-- Module-level table `LAST_NAMES` (20 entries). -/
def LAST_NAMES : List String :=
  ["山田", "佐藤", "鈴木", "田中", "高橋", "伊藤", "渡辺", "中村", "小林", "加藤",
   "吉田", "山本", "松本", "井上", "木村", "林", "斎藤", "清水", "山崎", "森"]

/-- Module-level table `FIRST_NAMES_MALE` (10 entries). -/
def FIRST_NAMES_MALE : List String :=
  ["太郎", "一郎", "健太", "翔太", "大輔", "直樹", "拓也", "和也", "達也", "雄太"]

/-- Module-level table `FIRST_NAMES_FEMALE` (10 entries). -/
def FIRST_NAMES_FEMALE : List String :=
  ["花子", "美咲", "愛", "さくら", "陽子", "真由美", "裕子", "恵子", "明美", "由美"]

/-- Module-level table `PREFECTURES`: prefecture paired with its municipality
list (10 entries). -/
def PREFECTURES : List (String × List String) :=
  [("東京都", ["渋谷区", "新宿区", "港区", "千代田区", "中央区", "世田谷区", "目黒区"]),
   ("大阪府", ["大阪市北区", "大阪市中央区", "大阪市西区", "堺市", "豊中市"]),
   ("愛知県", ["名古屋市中区", "名古屋市東区", "名古屋市西区", "豊田市", "岡崎市"]),
   ("福岡県", ["福岡市博多区", "福岡市中央区", "北九州市", "久留米市"]),
   ("北海道", ["札幌市中央区", "札幌市北区", "函館市", "旭川市"]),
   ("神奈川県", ["横浜市西区", "横浜市中区", "川崎市", "相模原市"]),
   ("埼玉県", ["さいたま市大宮区", "さいたま市浦和区", "川口市", "所沢市"]),
   ("千葉県", ["千葉市中央区", "船橋市", "市川市", "柏市"]),
   ("兵庫県", ["神戸市中央区", "姫路市", "西宮市", "尼崎市"]),
   ("京都府", ["京都市中京区", "京都市下京区", "宇治市", "舞鶴市"])]

/-- Function `generate_random_resume_data()`: draws surname, coin-flip gender, given
name, birth-date components, and address components, in the source's call
order, threading the random state. -/
def generate_random_resume_data (s : RandState) : ResumeData × RandState :=
  let (last_name, s) := randChoice LAST_NAMES "" s
  let (is_male, s) := randChoice [true, false] true s
  let (first_name, s) := randChoice (if is_male then FIRST_NAMES_MALE else FIRST_NAMES_FEMALE) "" s
  let name := last_name ++ first_name
  let (year, s) := randInt 1970 2000 s
  let (month, s) := randInt 1 12 s
  let (day, s) := randInt 1 28 s
  let birth_date := Nat.repr year ++ "年" ++ Nat.repr month ++ "月" ++ Nat.repr day ++ "日"
  let (pref, s) := randChoice PREFECTURES ("", []) s
  let (city, s) := randChoice pref.2 "" s
  let (chome, s) := randInt 1 5 s
  let (ban, s) := randInt 1 20 s
  let (go, s) := randInt 1 30 s
  let address := pref.1 ++ city ++ Nat.repr chome ++ "-" ++ Nat.repr ban ++ "-" ++ Nat.repr go
  (⟨name, birth_date, address⟩, s)

/-- Function `get_variation_config(variation_type)`: builds the configuration table and
indexes it.  The Python dict literal evaluates every entry on every call, so
the two `random.uniform` draws (TILTED's, then COMPLEX's, in dict order)
happen on every invocation regardless of which preset is requested. -/
def get_variation_config (variation_type : VariationType) (s : RandState) :
    VariationConfig × RandState :=
  let (tiltedAngle, s) := randUniform 1.5 3.0 s
  let (complexAngle, s) := randUniform 1.0 2.0 s
  let cfg : VariationConfig :=
    match variation_type with
    | .STANDARD => { variation_type := .STANDARD, font_size := 14 }
    | .HANDWRITTEN => { variation_type := .HANDWRITTEN, font_size := 14 }
    | .FADED => { variation_type := .FADED, font_size := 14, text_color := (150, 150, 150) }
    | .TILTED => { variation_type := .TILTED, font_size := 14, rotation_angle := tiltedAngle }
    | .NOISY => { variation_type := .NOISY, font_size := 14, add_noise := true }
    | .BLURRED => { variation_type := .BLURRED, font_size := 14, blur_radius := 1.2 }
    | .HEAVY_LINES => { variation_type := .HEAVY_LINES, font_size := 14, line_thickness := 3 }
    | .SMALL_FONT => { variation_type := .SMALL_FONT, font_size := 9 }
    | .MIXED_FONT => { variation_type := .MIXED_FONT, font_size := 14, use_gothic := true }
    | .COMPLEX =>
      { variation_type := .COMPLEX, font_size := 12, text_color := (120, 120, 120),
        rotation_angle := complexAngle, add_noise := true, blur_radius := 0.5 }
  (cfg, s)

/-- Function `_get_difficulty(variation_type)`: static preset-to-difficulty map. -/
def _get_difficulty : VariationType → String
  | .STANDARD => "easy"
  | .HANDWRITTEN => "medium"
  | .FADED => "medium"
  | .TILTED => "medium"
  | .NOISY => "hard"
  | .BLURRED => "hard"
  | .HEAVY_LINES => "medium"
  | .SMALL_FONT => "medium"
  | .MIXED_FONT => "medium"
  | .COMPLEX => "hard"

/-! ## Image model

Two views of the Pillow image, at the abstraction level each claim needs.

The trace view (`PilImage`) records the sequence of Pillow calls the renderer
makes — drawing primitives and the three degradation operators — so that
structural facts (which effects ran, in which order, with which arguments,
what canvas size results) can be read off the constructed trace.  `rotate` is
invoked by this program only with `expand=False`, the Pillow mode that keeps
the canvas size; `PilImage.size` models that mode.

The pixel view (`PImage`) gives `_add_noise` its per-pixel semantics: a
filled ellipse over a bounding box `[x0, y0, x1, y1]` (Pillow includes both
corners, so the disc spans the continuous box `[x0, x1+1] × [y0, y1+1]`)
repaints exactly the pixels whose centres fall inside the inscribed ellipse. -/

/-- Module-level constant `FONT_MINCHO`. -/
def FONT_MINCHO : String := "/usr/share/fonts/opentype/ipaexfont-mincho/ipaexm.ttf"

/-- Module-level constant `FONT_GOTHIC`. -/
def FONT_GOTHIC : String := "/usr/share/fonts/opentype/ipaexfont-gothic/ipaexg.ttf"

/-- A loaded font: `ImageFont.truetype(path, size)` or
`ImageFont.load_default()`. -/
inductive Font where
  | truetype (path : String) (size : Nat)
  | loadDefault
deriving DecidableEq, Repr

/-- Pillow resampling filters (only `BICUBIC` is used here). -/
inductive Resample where
  | bicubic
  | bilinear
  | nearest
deriving DecidableEq, Repr

/-- One `draw.ellipse([x0, y0, x1, y1], fill=c)` call issued by `_add_noise`. -/
structure Ellipse where
  x0 : Nat
  y0 : Nat
  x1 : Nat
  y1 : Nat
  fill : Color
deriving DecidableEq, Repr

/-- One iteration of the small-speck loop of `_add_noise`: draws x, y, gray,
size in the source's call order and yields the ellipse bbox `[x, y, x+size,
y+size]` with fill `(gray, gray, gray)`. -/
def speckDraw (w h : Nat) (s : RandState) : Ellipse × RandState :=
  let (x, s) := randInt 0 (w - 1) s
  let (y, s) := randInt 0 (h - 1) s
  let (gray, s) := randInt 180 220 s
  let (size, s) := randInt 1 3 s
  (⟨x, y, x + size, y + size, (gray, gray, gray)⟩, s)

/-- One iteration of the stain loop of `_add_noise`: draws x, y, w, h, gray in
the source's call order; positions are clamped away from the page edges. -/
def stainDraw (w h : Nat) (s : RandState) : Ellipse × RandState :=
  let (x, s) := randInt 50 (w - 100) s
  let (y, s) := randInt 50 (h - 100) s
  let (ew, s) := randInt 20 60 s
  let (eh, s) := randInt 10 30 s
  let (gray, s) := randInt 230 245 s
  (⟨x, y, x + ew, y + eh, (gray, gray, gray)⟩, s)

/-- Runs `n` iterations of one ellipse-drawing loop, threading the random
state and collecting the ellipses in drawing order. -/
def drawLoop (f : RandState → Ellipse × RandState) : Nat → RandState → List Ellipse × RandState
  | 0, s => ([], s)
  | n + 1, s =>
    let e := f s
    let rest := drawLoop f n e.2
    (e.1 :: rest.1, rest.2)

/-- The full list of ellipses `_add_noise` draws on a `w × h` image: a random
count (50–150) of small specks followed by a random count (3–8) of larger
stains, in drawing order. -/
def noiseDraws (w h : Nat) (s : RandState) : List Ellipse × RandState :=
  let n1 := randInt 50 150 s
  let specks := drawLoop (speckDraw w h) n1.1 n1.2
  let n2 := randInt 3 8 specks.2
  let stains := drawLoop (stainDraw w h) n2.1 n2.2
  (specks.1 ++ stains.1, stains.2)

/-! ### Trace view -/

/-- Trace of the Pillow calls that built an image.  Draw coordinates are
integers (Python ints). -/
inductive PilImage where
  | new (mode : String) (width height : Nat) (color : String)
  | rectangle (base : PilImage) (x0 y0 x1 y1 : ℤ) (outline : Color) (width : Nat)
  | line (base : PilImage) (x0 y0 x1 y1 : ℤ) (fill : Color) (width : Nat)
  | text (base : PilImage) (x y : ℤ) (str : String) (fill : Color) (font : Font)
  | noised (base : PilImage) (draws : List Ellipse)
  | gaussianBlur (base : PilImage) (radius : ℚ)
  | rotate (base : PilImage) (angle : ℚ) (resample : Resample) (expand : Bool) (fillcolor : String)
deriving DecidableEq, Repr

/-- Pixel dimensions of the image a trace denotes.  Drawing, noise and blur
keep the canvas; `rotate` is modelled in its `expand=False` mode (the only
mode this program uses — see `rotationsKeepCanvas`), which keeps the canvas. -/
def PilImage.size : PilImage → Nat × Nat
  | .new _ w h _ => (w, h)
  | .rectangle b _ _ _ _ _ _ => b.size
  | .line b _ _ _ _ _ _ => b.size
  | .text b _ _ _ _ _ => b.size
  | .noised b _ => b.size
  | .gaussianBlur b _ => b.size
  | .rotate b _ _ _ _ => b.size

/-- True iff every `rotate` node in the trace was issued with
`expand=False` and `fillcolor="white"`. -/
def PilImage.rotationsKeepCanvas : PilImage → Bool
  | .new _ _ _ _ => true
  | .rectangle b _ _ _ _ _ _ => b.rotationsKeepCanvas
  | .line b _ _ _ _ _ _ => b.rotationsKeepCanvas
  | .text b _ _ _ _ _ => b.rotationsKeepCanvas
  | .noised b _ => b.rotationsKeepCanvas
  | .gaussianBlur b _ => b.rotationsKeepCanvas
  | .rotate b _ _ expand fillcolor => !expand && fillcolor == "white" && b.rotationsKeepCanvas

/-- The fonts of the `text` calls in a trace, in drawing order. -/
def PilImage.textFonts : PilImage → List Font
  | .new _ _ _ _ => []
  | .rectangle b _ _ _ _ _ _ => b.textFonts
  | .line b _ _ _ _ _ _ => b.textFonts
  | .text b _ _ _ _ f => b.textFonts ++ [f]
  | .noised b _ => b.textFonts
  | .gaussianBlur b _ => b.textFonts
  | .rotate b _ _ _ _ => b.textFonts

/-- The three degradation operators. -/
inductive EffectKind where
  | noise
  | blur
  | rotation
deriving DecidableEq, Repr

/-- The degradation operators applied on top of a drawn base, in application
order (innermost first). -/
def effectsOf : PilImage → List EffectKind
  | .noised b _ => effectsOf b ++ [.noise]
  | .gaussianBlur b _ => effectsOf b ++ [.blur]
  | .rotate b _ _ _ _ => effectsOf b ++ [.rotation]
  | _ => []

/-- The three labelled rows of `create_resume_image` (drawn after the title):
row frame, label/value divider, label text, then value text.  In mixed-font
mode (`use_gothic`) even-indexed rows render their value in the Mincho face,
falling back to the already-loaded value font if that face fails to load.
`fontOk path` models whether `ImageFont.truetype(path, ·)` succeeds. -/
def drawRows (config : VariationConfig) (fontOk : String → Bool) (width : Nat)
    (font_label font_value : Font) (line_color : Color) (line_width : Nat) :
    List (String × String) → Nat → PilImage → PilImage
  | [], _, img => img
  | (label, value) :: rest, i, img =>
    let y : ℤ := 150 + (i : ℤ) * 60
    let img := PilImage.rectangle img 40 y ((width : ℤ) - 40) (y + 60) line_color line_width
    let img := PilImage.line img 150 y 150 (y + 60) line_color line_width
    let img := PilImage.text img 55 (y + 18) label config.text_color font_label
    let font_value_row :=
      if config.use_gothic && i % 2 == 0 then
        if fontOk FONT_MINCHO then Font.truetype FONT_MINCHO (config.font_size + 2)
        else font_value
      else font_value
    let img := PilImage.text img 165 (y + 15) value config.text_color font_value_row
    drawRows config fontOk width font_label font_value line_color line_width rest (i + 1) img

/-- Lines 291–349 of `create_resume_image`: white canvas, font loading with
the all-roles fallback to `ImageFont.load_default()` when the configured face
fails to load, title box and title, then the three field rows. -/
def drawResumeBase (data : ResumeData) (config : VariationConfig)
    (width height : Nat) (fontOk : String → Bool) : PilImage :=
  let img := PilImage.new "RGB" width height "white"
  let font_path := if config.use_gothic then FONT_GOTHIC else FONT_MINCHO
  let ok := fontOk font_path
  let font_title := if ok then Font.truetype font_path 24 else Font.loadDefault
  let font_label := if ok then Font.truetype font_path config.font_size else Font.loadDefault
  let font_value := if ok then Font.truetype font_path (config.font_size + 2) else Font.loadDefault
  let line_color : Color := (0, 0, 0)
  let line_width := config.line_thickness
  let img := PilImage.rectangle img 40 40 ((width : ℤ) - 40) 120 line_color line_width
  let img := PilImage.text img ((width : ℤ) / 2 - 50) 65 "履 歴 書" config.text_color font_title
  let fieldRows := [("氏　　名", data.name), ("生年月日", data.birth_date), ("住　　所", data.address)]
  drawRows config fontOk width font_label font_value line_color line_width fieldRows 0 img

/-- Lines 351–368 of `create_resume_image`: the degradation pipeline, applied
in the source order — noise if `add_noise`, Gaussian blur if
`blur_radius > 0`, rotation (BICUBIC, `expand=False`, white fill) if
`rotation_angle != 0`.  Only the noise step consumes the random source. -/
def applyEffects (config : VariationConfig) (img : PilImage) (s : RandState) :
    PilImage × RandState :=
  let (img, s) :=
    if config.add_noise then
      let (draws, s) := noiseDraws img.size.1 img.size.2 s
      (PilImage.noised img draws, s)
    else (img, s)
  let img := if config.blur_radius > 0 then PilImage.gaussianBlur img config.blur_radius else img
  let img :=
    if config.rotation_angle ≠ 0 then
      PilImage.rotate img config.rotation_angle .bicubic false "white"
    else img
  (img, s)

/-- Function `create_resume_image(data, config, width=595, height=842)`: draw the page,
then run the degradation pipeline.  The Python defaults are `width = 595`,
`height = 842`; callers here pass them explicitly. -/
def create_resume_image (data : ResumeData) (config : VariationConfig)
    (width height : Nat) (fontOk : String → Bool) (s : RandState) :
    PilImage × RandState :=
  applyEffects config (drawResumeBase data config width height fontOk) s

/-! ### Pixel view -/

/-- A raster image: dimensions plus a pixel map (only coordinates inside
`[0, width) × [0, height)` are meaningful). -/
structure PImage where
  width : Nat
  height : Nat
  pix : Nat → Nat → Color

/-- The white background colour. -/
def white : Color := (255, 255, 255)

/-- Pixel-centre test for the filled ellipse inscribed in the (inclusive)
bounding box `[x0, y0, x1, y1]`: the disc spans the continuous box
`[x0, x1+1] × [y0, y1+1]`, and pixel `(px, py)` has centre
`(px + 1/2, py + 1/2)`; the inequality below is that centre test with
denominators cleared. -/
def inEllipse (e : Ellipse) (px py : Nat) : Prop :=
  (2 * (px : ℤ) + 1 - ((e.x0 : ℤ) + (e.x1 : ℤ) + 1)) ^ 2 * ((e.y1 : ℤ) + 1 - (e.y0 : ℤ)) ^ 2 +
      (2 * (py : ℤ) + 1 - ((e.y0 : ℤ) + (e.y1 : ℤ) + 1)) ^ 2 * ((e.x1 : ℤ) + 1 - (e.x0 : ℤ)) ^ 2 ≤
    ((e.x1 : ℤ) + 1 - (e.x0 : ℤ)) ^ 2 * ((e.y1 : ℤ) + 1 - (e.y0 : ℤ)) ^ 2

instance (e : Ellipse) (px py : Nat) : Decidable (inEllipse e px py) := by
  unfold inEllipse
  exact inferInstance

/-- Pillow `draw.ellipse(..., fill=e.fill)`: repaint the covered pixels. -/
def drawEllipse (e : Ellipse) (img : PImage) : PImage :=
  ⟨img.width, img.height, fun x y => if inEllipse e x y then e.fill else img.pix x y⟩

/-- Function `_add_noise(img)`: draw the random specks and stains over the image,
threading the random state. -/
def _add_noise (img : PImage) (s : RandState) : PImage × RandState :=
  let draws := noiseDraws img.width img.height s
  ((draws.1).foldl (fun im e => drawEllipse e im) img, draws.2)

/-- Number of non-white (non-background) pixels of an image. -/
def nonWhiteCount (img : PImage) : Nat :=
  ((Finset.range img.width ×ˢ Finset.range img.height).filter
    (fun p => img.pix p.1 p.2 ≠ white)).card

/-! ### Batch driver and manifest -/

/-- One manifest record (one line of `outputs/dataset.jsonl`). -/
structure ManifestRecord where
  input_pdf : String
  target : String
  variation : String
  difficulty : String
deriving DecidableEq, Repr

/-- Line 475: the ground-truth text
`f"氏名: {name}\n生年月日: {birth_date}\n住所: {address}"`. -/
def targetOf (data : ResumeData) : String :=
  "氏名: " ++ data.name ++ "\n生年月日: " ++ data.birth_date ++ "\n住所: " ++ data.address

/-- Python's `{index:03d}` format: decimal, zero-padded on the left to at
least three digits. -/
def pad3 (n : Nat) : String :=
  if n < 10 then "00" ++ Nat.repr n
  else if n < 100 then "0" ++ Nat.repr n
  else Nat.repr n

/-- The body of the generation loop for one file (lines 460–486): sample the
data, look up the preset's config (a fresh construction, consuming the random
source), build the filename from the running counter, render (consuming the
random source when noise is enabled), and build the manifest record from the
same sampled data.  Writing the PDF bytes is pure I/O and is represented by
the returned filename. -/
def genUnit (vt : VariationType) (index : Nat) (gcs_bucket : String)
    (fontOk : String → Bool) (s : RandState) : String × ManifestRecord × RandState :=
  let (data, s) := generate_random_resume_data s
  let (config, s) := get_variation_config vt s
  let filename := "resume_" ++ pad3 index ++ "_" ++ vt.value ++ ".pdf"
  let (_, s) := create_resume_image data config 595 842 fontOk s
  let target := targetOf data
  (filename,
   { input_pdf := gcs_bucket ++ "/" ++ filename
     target := target
     variation := vt.value
     difficulty := _get_difficulty vt }, s)

/-- The inner `for _ in range(count)` loop: `count` units of one preset,
accumulating filenames and records in generation order and advancing the
shared counter. -/
def genInner (vt : VariationType) (gcs_bucket : String) (fontOk : String → Bool) :
    Nat → Nat → RandState → List String × List ManifestRecord × Nat × RandState
  | 0, index, s => ([], [], index, s)
  | n + 1, index, s =>
    let u := genUnit vt index gcs_bucket fontOk s
    let rest := genInner vt gcs_bucket fontOk n (index + 1) u.2.2
    (u.1 :: rest.1, u.2.1 :: rest.2.1, rest.2.2.1, rest.2.2.2)

/-- The outer loop over the variation schedule. -/
def genLoop (gcs_bucket : String) (fontOk : String → Bool) :
    List (VariationType × Nat) → Nat → RandState →
    List String × List ManifestRecord × Nat × RandState
  | [], index, s => ([], [], index, s)
  | (vt, count) :: rest, index, s =>
    let a := genInner vt gcs_bucket fontOk count index s
    let b := genLoop gcs_bucket fontOk rest a.2.2.1 a.2.2.2
    (a.1 ++ b.1, a.2.1 ++ b.2.1, b.2.2.1, b.2.2.2)

/-- The hardcoded schedule: each of the ten presets generates exactly 2
files. -/
def variations : List (VariationType × Nat) :=
  [(.STANDARD, 2), (.HANDWRITTEN, 2), (.FADED, 2), (.TILTED, 2), (.NOISY, 2),
   (.BLURRED, 2), (.HEAVY_LINES, 2), (.SMALL_FONT, 2), (.MIXED_FONT, 2), (.COMPLEX, 2)]

/-- Function `generate_all_resumes(output_dir, gcs_bucket_prefix)`: the batch driver.
Returns the filenames written under the output directory (in generation
order) and the accumulated manifest records; the counter starts at 1. -/
def generate_all_resumes (gcs_bucket : String) (fontOk : String → Bool) (s : RandState) :
    List String × List ManifestRecord × RandState :=
  let r := genLoop gcs_bucket fontOk variations 1 s
  (r.1, r.2.1, r.2.2.2)

/-! ### Round-trip parser for the manifest `target` string

The spec's round-trip property reads a manifest record's `target` back into
its three field values: split on newlines into exactly three lines and strip
the `氏名: ` / `生年月日: ` / `住所: ` labels. -/

/-- Split a character list on newline characters. -/
def splitLines : List Char → List (List Char)
  | [] => [[]]
  | c :: cs =>
    if c = '\n' then [] :: splitLines cs
    else
      match splitLines cs with
      | [] => [[c]]
      | l :: ls => (c :: l) :: ls

/-- Strip an expected label from the front of a line; `none` if the line does
not start with the label. -/
def dropLabel : List Char → List Char → Option (List Char)
  | [], l => some l
  | _ :: _, [] => none
  | p :: ps, c :: cs => if p = c then dropLabel ps cs else none

/-- Parse a `target` string back into `(name, birth_date, address)`:
exactly three newline-separated lines, labelled `氏名: `, `生年月日: `,
`住所: ` respectively. -/
def parseTarget (t : String) : Option (String × String × String) :=
  match splitLines t.data with
  | [l1, l2, l3] =>
    match dropLabel "氏名: ".data l1, dropLabel "生年月日: ".data l2, dropLabel "住所: ".data l3 with
    | some a, some b, some c => some (String.mk a, String.mk b, String.mk c)
    | _, _, _ => none
  | _ => none

/-! ### Concrete inputs used by witnesses and counterexamples -/

/-- A solid-colour raster. -/
def mkSolid (w h : Nat) (c : Color) : PImage := ⟨w, h, fun _ _ => c⟩

/-- An all-zero random source. -/
def stateZero : RandState := ⟨fun _ => 0, fun _ => 0, 0⟩

/-- A random source whose unit-interval draws are all `1/2`. -/
def stateHalf : RandState := ⟨fun _ => 0, fun _ => 1/2, 0⟩

/-- An all-black 150 × 150 page: every pixel is already non-white. -/
def blackPage : PImage := mkSolid 150 150 (0, 0, 0)

/-- An all-white 150 × 150 page. -/
def whitePage : PImage := mkSolid 150 150 white

/-- A concrete sample record for witness instantiations. -/
def sampleData : ResumeData := ⟨"山田太郎", "1990年1月1日", "東京都渋谷区1-2-3"⟩

/-! ## Theorems -/

/-- Claim C8: the difficulty label is a pure function of the preset — "easy"
for standard; "medium" for handwritten, faded, tilted, heavy_lines,
small_font, mixed_font; "hard" for noisy, blurred, complex — so every
record's difficulty is one of {easy, medium, hard}. -/
theorem claim_C8 :
    _get_difficulty .STANDARD = "easy" ∧
    _get_difficulty .HANDWRITTEN = "medium" ∧
    _get_difficulty .FADED = "medium" ∧
    _get_difficulty .TILTED = "medium" ∧
    _get_difficulty .HEAVY_LINES = "medium" ∧
    _get_difficulty .SMALL_FONT = "medium" ∧
    _get_difficulty .MIXED_FONT = "medium" ∧
    _get_difficulty .NOISY = "hard" ∧
    _get_difficulty .BLURRED = "hard" ∧
    _get_difficulty .COMPLEX = "hard" ∧
    ∀ vt : VariationType,
      _get_difficulty vt = "easy" ∨ _get_difficulty vt = "medium" ∨
        _get_difficulty vt = "hard" := by
  refine ⟨rfl, rfl, rfl, rfl, rfl, rfl, rfl, rfl, rfl, rfl, ?_⟩
  intro vt
  cases vt <;> simp [_get_difficulty]

/-- Claim C6: every lookup of the "tilted" preset yields a rotation angle in
[1.5, 3.0) and every lookup of "complex" yields one in [1.0, 2.0), provided
the unit-interval draw feeding it lies in [0, 1); the angle is drawn fresh at
config-construction time, so lookups under different random sources can give
different angles. -/
theorem claim_C6 :
    (∀ s : RandState, 0 ≤ s.uniGen s.idx → s.uniGen s.idx < 1 →
      3/2 ≤ (get_variation_config .TILTED s).1.rotation_angle ∧
        (get_variation_config .TILTED s).1.rotation_angle < 3) ∧
    (∀ s : RandState, 0 ≤ s.uniGen (s.idx + 1) → s.uniGen (s.idx + 1) < 1 →
      1 ≤ (get_variation_config .COMPLEX s).1.rotation_angle ∧
        (get_variation_config .COMPLEX s).1.rotation_angle < 2) ∧
    (get_variation_config .TILTED stateZero).1.rotation_angle ≠
      (get_variation_config .TILTED stateHalf).1.rotation_angle ∧
    (get_variation_config .COMPLEX stateZero).1.rotation_angle ≠
      (get_variation_config .COMPLEX stateHalf).1.rotation_angle := by
  refine ⟨?_, ?_, ?_, ?_⟩
  case refine_3 =>
    have e1 : (get_variation_config .TILTED stateZero).1.rotation_angle =
        1.5 + (3.0 - 1.5) * 0 := rfl
    have e2 : (get_variation_config .TILTED stateHalf).1.rotation_angle =
        1.5 + (3.0 - 1.5) * (1/2) := rfl
    rw [e1, e2]
    norm_num
  case refine_4 =>
    have e1 : (get_variation_config .COMPLEX stateZero).1.rotation_angle =
        1.0 + (2.0 - 1.0) * 0 := rfl
    have e2 : (get_variation_config .COMPLEX stateHalf).1.rotation_angle =
        1.0 + (2.0 - 1.0) * (1/2) := rfl
    rw [e1, e2]
    norm_num
  · intro s h0 h1
    have e : (get_variation_config .TILTED s).1.rotation_angle =
        1.5 + (3.0 - 1.5) * s.uniGen s.idx := rfl
    rw [e]
    norm_num
    constructor <;> nlinarith
  · intro s h0 h1
    have e : (get_variation_config .COMPLEX s).1.rotation_angle =
        1.0 + (2.0 - 1.0) * s.uniGen (s.idx + 1) := rfl
    rw [e]
    norm_num
    constructor <;> nlinarith

/-- Witness for claim C6 at the all-zero random source: the hypotheses hold
and the tilted angle lies in [1.5, 3). -/
theorem claim_C6_witness :
    (0 ≤ stateZero.uniGen stateZero.idx ∧ stateZero.uniGen stateZero.idx < 1) ∧
    (3/2 ≤ (get_variation_config .TILTED stateZero).1.rotation_angle ∧
      (get_variation_config .TILTED stateZero).1.rotation_angle < 3) :=
  ⟨⟨by norm_num [stateZero], by norm_num [stateZero]⟩,
   claim_C6.1 stateZero (by norm_num [stateZero]) (by norm_num [stateZero])⟩

/-- The degradation pipeline appends exactly the enabled effects, in the
fixed order noise, blur, rotation. -/
theorem applyEffects_effectsOf (config : VariationConfig) (img : PilImage) (s : RandState) :
    effectsOf (applyEffects config img s).1 =
      effectsOf img ++
        ((if config.add_noise then [EffectKind.noise] else []) ++
          (if 0 < config.blur_radius then [EffectKind.blur] else []) ++
          (if config.rotation_angle ≠ 0 then [EffectKind.rotation] else [])) := by
  unfold applyEffects
  cases hn : config.add_noise <;>
    by_cases hb : 0 < config.blur_radius <;>
    by_cases hr : config.rotation_angle = 0 <;>
    simp [effectsOf, hn, hb, hr]

/-- The degradation pipeline never changes the canvas size (rotation is
issued with `expand=False`). -/
theorem applyEffects_size (config : VariationConfig) (img : PilImage) (s : RandState) :
    (applyEffects config img s).1.size = img.size := by
  unfold applyEffects
  cases hn : config.add_noise <;>
    by_cases hb : 0 < config.blur_radius <;>
    by_cases hr : config.rotation_angle = 0 <;>
    simp [PilImage.size, hn, hb, hr]

/-- The degradation pipeline only ever issues `expand=False`, white-fill
rotations. -/
theorem applyEffects_rotationsKeepCanvas (config : VariationConfig) (img : PilImage)
    (s : RandState) :
    (applyEffects config img s).1.rotationsKeepCanvas = img.rotationsKeepCanvas := by
  unfold applyEffects
  cases hn : config.add_noise <;>
    by_cases hb : 0 < config.blur_radius <;>
    by_cases hr : config.rotation_angle = 0 <;>
    simp [PilImage.rotationsKeepCanvas, hn, hb, hr]

/-- The degradation pipeline adds no text calls. -/
theorem applyEffects_textFonts (config : VariationConfig) (img : PilImage) (s : RandState) :
    (applyEffects config img s).1.textFonts = img.textFonts := by
  unfold applyEffects
  cases hn : config.add_noise <;>
    by_cases hb : 0 < config.blur_radius <;>
    by_cases hr : config.rotation_angle = 0 <;>
    simp [PilImage.textFonts, hn, hb, hr]

/-- A fully disabled pipeline is the identity. -/
theorem applyEffects_untouched (config : VariationConfig) (img : PilImage) (s : RandState)
    (h1 : config.add_noise = false) (h2 : config.blur_radius ≤ 0)
    (h3 : config.rotation_angle = 0) :
    applyEffects config img s = (img, s) := by
  unfold applyEffects
  simp [h1, h3, not_lt.mpr h2]

/-- The drawn page (before degradation) carries no degradation operators. -/
theorem effectsOf_drawResumeBase (data : ResumeData) (config : VariationConfig)
    (width height : Nat) (fontOk : String → Bool) :
    effectsOf (drawResumeBase data config width height fontOk) = [] := rfl

/-- Claim C3: for every record and configuration the pipeline applies at most
the three transforms, in the fixed order noise then blur then rotation; noise
runs iff `add_noise`, blur iff the radius is positive (0 disables), rotation
iff the angle is nonzero; a configuration with none enabled leaves the drawn
raster untransformed. -/
theorem claim_C3 :
    ∀ (data : ResumeData) (config : VariationConfig) (width height : Nat)
      (fontOk : String → Bool) (s : RandState),
      effectsOf (create_resume_image data config width height fontOk s).1 =
          (if config.add_noise then [EffectKind.noise] else []) ++
            (if 0 < config.blur_radius then [EffectKind.blur] else []) ++
            (if config.rotation_angle ≠ 0 then [EffectKind.rotation] else []) ∧
        (EffectKind.noise ∈ effectsOf (create_resume_image data config width height fontOk s).1 ↔
          config.add_noise = true) ∧
        (EffectKind.blur ∈ effectsOf (create_resume_image data config width height fontOk s).1 ↔
          0 < config.blur_radius) ∧
        (EffectKind.rotation ∈
            effectsOf (create_resume_image data config width height fontOk s).1 ↔
          config.rotation_angle ≠ 0) ∧
        List.Sublist (effectsOf (create_resume_image data config width height fontOk s).1)
          [EffectKind.noise, EffectKind.blur, EffectKind.rotation] ∧
        (config.add_noise = false → config.blur_radius ≤ 0 → config.rotation_angle = 0 →
          (create_resume_image data config width height fontOk s).1 =
            drawResumeBase data config width height fontOk) := by
  intro data config width height fontOk s
  have he : effectsOf (create_resume_image data config width height fontOk s).1 =
      (if config.add_noise then [EffectKind.noise] else []) ++
        (if 0 < config.blur_radius then [EffectKind.blur] else []) ++
        (if config.rotation_angle ≠ 0 then [EffectKind.rotation] else []) := by
    unfold create_resume_image
    rw [applyEffects_effectsOf, effectsOf_drawResumeBase, List.nil_append]
  refine ⟨he, ?_, ?_, ?_, ?_, fun h1 h2 h3 => ?_⟩
  · rw [he]
    cases hn : config.add_noise <;>
      by_cases hb : 0 < config.blur_radius <;>
      by_cases hr : config.rotation_angle = 0 <;>
      simp [hb, hr]
  · rw [he]
    cases hn : config.add_noise <;>
      by_cases hb : 0 < config.blur_radius <;>
      by_cases hr : config.rotation_angle = 0 <;>
      simp [hb, hr]
  · rw [he]
    cases hn : config.add_noise <;>
      by_cases hb : 0 < config.blur_radius <;>
      by_cases hr : config.rotation_angle = 0 <;>
      simp [hb, hr]
  · rw [he]
    cases hn : config.add_noise <;>
      by_cases hb : 0 < config.blur_radius <;>
      by_cases hr : config.rotation_angle = 0 <;>
      simp [hb, hr]
  · exact congrArg Prod.fst (applyEffects_untouched config _ s h1 h2 h3)

/-- Witness for claim C3 at the standard preset (all degradations off): the
rendered image is exactly the drawn base. -/
theorem claim_C3_witness :
    ((get_variation_config .STANDARD stateZero).1.add_noise = false ∧
      (get_variation_config .STANDARD stateZero).1.blur_radius ≤ 0 ∧
      (get_variation_config .STANDARD stateZero).1.rotation_angle = 0) ∧
    (create_resume_image sampleData (get_variation_config .STANDARD stateZero).1 595 842
        (fun _ => true) stateZero).1 =
      drawResumeBase sampleData (get_variation_config .STANDARD stateZero).1 595 842
        (fun _ => true) :=
  ⟨⟨rfl, by show (0.0 : ℚ) ≤ 0; norm_num, by show (0.0 : ℚ) = 0; norm_num⟩,
   (claim_C3 sampleData (get_variation_config .STANDARD stateZero).1 595 842
      (fun _ => true) stateZero).2.2.2.2.2 rfl (by show (0.0 : ℚ) ≤ 0; norm_num)
     (by show (0.0 : ℚ) = 0; norm_num)⟩

/-- Claim C4: rendering any record with any configuration yields an image of
exactly the requested width and height (in particular 595 × 842 at the
defaults), and every rotation in the trace keeps the canvas (`expand=False`)
with white fill. -/
theorem claim_C4 :
    ∀ (data : ResumeData) (config : VariationConfig) (width height : Nat)
      (fontOk : String → Bool) (s : RandState),
      (create_resume_image data config width height fontOk s).1.size = (width, height) ∧
      (create_resume_image data config width height fontOk s).1.rotationsKeepCanvas = true ∧
      (create_resume_image data config 595 842 fontOk s).1.size = (595, 842) := by
  intro data config width height fontOk s
  refine ⟨?_, ?_, ?_⟩
  · unfold create_resume_image
    rw [applyEffects_size]
    rfl
  · unfold create_resume_image
    rw [applyEffects_rotationsKeepCanvas]
    rfl
  · unfold create_resume_image
    rw [applyEffects_size]
    rfl

/-- Claim C7: if the configured face cannot be loaded (and, in mixed-font
mode, the Mincho face cannot either), every text call falls back to the
built-in default font, with no error surfaced; if in mixed-font mode only the
Mincho face is missing, the even-indexed rows' values fall back to the
already-loaded Gothic value font, and all seven text calls still render. -/
theorem claim_C7 :
    (∀ (data : ResumeData) (config : VariationConfig) (width height : Nat)
        (fontOk : String → Bool) (s : RandState),
      fontOk FONT_MINCHO = false →
      fontOk (if config.use_gothic then FONT_GOTHIC else FONT_MINCHO) = false →
      ∀ f ∈ ((create_resume_image data config width height fontOk s).1).textFonts,
        f = Font.loadDefault) ∧
    (∀ (data : ResumeData) (config : VariationConfig) (width height : Nat)
        (fontOk : String → Bool) (s : RandState),
      config.use_gothic = true → fontOk FONT_GOTHIC = true → fontOk FONT_MINCHO = false →
      ((create_resume_image data config width height fontOk s).1).textFonts =
        [Font.truetype FONT_GOTHIC 24, Font.truetype FONT_GOTHIC config.font_size,
         Font.truetype FONT_GOTHIC (config.font_size + 2),
         Font.truetype FONT_GOTHIC config.font_size,
         Font.truetype FONT_GOTHIC (config.font_size + 2),
         Font.truetype FONT_GOTHIC config.font_size,
         Font.truetype FONT_GOTHIC (config.font_size + 2)]) := by
  constructor
  · intro data config width height fontOk s h1 h2 f hf
    rw [create_resume_image, applyEffects_textFonts] at hf
    cases hg : config.use_gothic <;> rw [hg] at h2 <;> simp at h2 <;>
      simp [drawResumeBase, drawRows, PilImage.textFonts, hg, h1, h2] at hf <;>
      simp [hf]
  · intro data config width height fontOk s hg h2 h1
    rw [create_resume_image, applyEffects_textFonts]
    simp [drawResumeBase, drawRows, PilImage.textFonts, hg, h1, h2]

/-- Witness for claim C7 in mixed-font mode with only the Gothic face
available: all seven text calls render, with the even rows' values in the
Gothic value font. -/
theorem claim_C7_witness :
    ((get_variation_config .MIXED_FONT stateZero).1.use_gothic = true ∧
      (fun p : String => p == FONT_GOTHIC) FONT_GOTHIC = true ∧
      (fun p : String => p == FONT_GOTHIC) FONT_MINCHO = false) ∧
    ((create_resume_image sampleData (get_variation_config .MIXED_FONT stateZero).1 595 842
        (fun p : String => p == FONT_GOTHIC) stateZero).1).textFonts =
      [Font.truetype FONT_GOTHIC 24, Font.truetype FONT_GOTHIC 14,
       Font.truetype FONT_GOTHIC 16, Font.truetype FONT_GOTHIC 14,
       Font.truetype FONT_GOTHIC 16, Font.truetype FONT_GOTHIC 14,
       Font.truetype FONT_GOTHIC 16] :=
  ⟨⟨rfl, by decide, by decide⟩,
   claim_C7.2 sampleData (get_variation_config .MIXED_FONT stateZero).1 595 842
     (fun p : String => p == FONT_GOTHIC) stateZero rfl (by decide) (by decide)⟩

/-- One unit's filename is `resume_{index:03d}_{preset}.pdf`. -/
theorem genUnit_fn (vt : VariationType) (idx : Nat) (gcs : String) (f : String → Bool)
    (s : RandState) :
    (genUnit vt idx gcs f s).1 = "resume_" ++ pad3 idx ++ "_" ++ vt.value ++ ".pdf" := rfl

/-- One unit's manifest record points at its own filename under the bucket. -/
theorem genUnit_input_pdf (vt : VariationType) (idx : Nat) (gcs : String) (f : String → Bool)
    (s : RandState) :
    (genUnit vt idx gcs f s).2.1.input_pdf = gcs ++ "/" ++ (genUnit vt idx gcs f s).1 := rfl

/-- One unit's manifest record carries its preset's string value. -/
theorem genUnit_variation (vt : VariationType) (idx : Nat) (gcs : String) (f : String → Bool)
    (s : RandState) :
    (genUnit vt idx gcs f s).2.1.variation = vt.value := rfl

/-- The inner loop produces the `count` sequential filenames starting at the
running counter, for any random state. -/
theorem genInner_fns (vt : VariationType) (gcs : String) (f : String → Bool) :
    ∀ (n idx : Nat) (s : RandState),
      (genInner vt gcs f n idx s).1 =
        (List.range n).map
          (fun j => "resume_" ++ pad3 (idx + j) ++ "_" ++ vt.value ++ ".pdf") := by
  intro n
  induction n with
  | zero => intro idx s; rfl
  | succ n ih =>
    intro idx s
    simp only [genInner, ih, genUnit_fn, List.range_succ_eq_map, List.map_cons, List.map_map,
      Nat.add_zero, Function.comp, Nat.succ_eq_add_one]
    refine congrArg₂ List.cons rfl (List.map_congr_left ?_)
    intro j hj
    have h : idx + 1 + j = idx + (j + 1) := by omega
    rw [h]
    simp only [Function.comp_apply, Nat.succ_eq_add_one]

/-- The inner loop advances the shared counter by `count`. -/
theorem genInner_idx (vt : VariationType) (gcs : String) (f : String → Bool) :
    ∀ (n idx : Nat) (s : RandState), (genInner vt gcs f n idx s).2.2.1 = idx + n := by
  intro n
  induction n with
  | zero => intro idx s; rfl
  | succ n ih =>
    intro idx s
    simp only [genInner, ih]
    omega

/-- Within the inner loop, record `i`'s `input_pdf` is the bucket path of
filename `i`. -/
theorem genInner_map_input (vt : VariationType) (gcs : String) (f : String → Bool) :
    ∀ (n idx : Nat) (s : RandState),
      ((genInner vt gcs f n idx s).2.1).map (fun r => r.input_pdf) =
        ((genInner vt gcs f n idx s).1).map (fun fn => gcs ++ "/" ++ fn) := by
  intro n
  induction n with
  | zero => intro idx s; rfl
  | succ n ih =>
    intro idx s
    simp only [genInner, List.map_cons, ih, genUnit_input_pdf]

/-- Within the inner loop, every record's `variation` is the preset value. -/
theorem genInner_map_variation (vt : VariationType) (gcs : String) (f : String → Bool) :
    ∀ (n idx : Nat) (s : RandState),
      ((genInner vt gcs f n idx s).2.1).map (fun r => r.variation) =
        List.replicate n vt.value := by
  intro n
  induction n with
  | zero => intro idx s; rfl
  | succ n ih =>
    intro idx s
    simp only [genInner, List.map_cons, ih, genUnit_variation, List.replicate_succ]

/-- Claim C1: with the default schedule the batch driver produces exactly 20
filenames, two per preset, of the form `resume_{index:03d}_{preset}.pdf` with
distinct sequential 1-based zero-padded indices 001–020, and the manifest has
exactly one record per file in generation order — record `i`'s `input_pdf`
is the bucket path of filename `i`, and its `variation` follows the
schedule — so filename index and manifest position stay in lockstep. -/
theorem claim_C1 :
    ∀ (gcs_bucket : String) (fontOk : String → Bool) (s : RandState),
      (generate_all_resumes gcs_bucket fontOk s).1 =
        ["resume_001_standard.pdf", "resume_002_standard.pdf",
         "resume_003_handwritten.pdf", "resume_004_handwritten.pdf",
         "resume_005_faded.pdf", "resume_006_faded.pdf",
         "resume_007_tilted.pdf", "resume_008_tilted.pdf",
         "resume_009_noisy.pdf", "resume_010_noisy.pdf",
         "resume_011_blurred.pdf", "resume_012_blurred.pdf",
         "resume_013_heavy_lines.pdf", "resume_014_heavy_lines.pdf",
         "resume_015_small_font.pdf", "resume_016_small_font.pdf",
         "resume_017_mixed_font.pdf", "resume_018_mixed_font.pdf",
         "resume_019_complex.pdf", "resume_020_complex.pdf"] ∧
      ((generate_all_resumes gcs_bucket fontOk s).1).length = 20 ∧
      ((generate_all_resumes gcs_bucket fontOk s).2.1).length = 20 ∧
      ((generate_all_resumes gcs_bucket fontOk s).2.1).map (fun r => r.input_pdf) =
        ((generate_all_resumes gcs_bucket fontOk s).1).map (fun fn => gcs_bucket ++ "/" ++ fn) ∧
      ((generate_all_resumes gcs_bucket fontOk s).2.1).map (fun r => r.variation) =
        ["standard", "standard", "handwritten", "handwritten", "faded", "faded",
         "tilted", "tilted", "noisy", "noisy", "blurred", "blurred",
         "heavy_lines", "heavy_lines", "small_font", "small_font",
         "mixed_font", "mixed_font", "complex", "complex"] := by
  intro gcs_bucket fontOk s
  have hfns : (generate_all_resumes gcs_bucket fontOk s).1 =
      ["resume_001_standard.pdf", "resume_002_standard.pdf",
       "resume_003_handwritten.pdf", "resume_004_handwritten.pdf",
       "resume_005_faded.pdf", "resume_006_faded.pdf",
       "resume_007_tilted.pdf", "resume_008_tilted.pdf",
       "resume_009_noisy.pdf", "resume_010_noisy.pdf",
       "resume_011_blurred.pdf", "resume_012_blurred.pdf",
       "resume_013_heavy_lines.pdf", "resume_014_heavy_lines.pdf",
       "resume_015_small_font.pdf", "resume_016_small_font.pdf",
       "resume_017_mixed_font.pdf", "resume_018_mixed_font.pdf",
       "resume_019_complex.pdf", "resume_020_complex.pdf"] := by
    simp only [generate_all_resumes, variations, genLoop, genInner_idx, genInner_fns]
    rfl
  have hvar : ((generate_all_resumes gcs_bucket fontOk s).2.1).map (fun r => r.variation) =
      ["standard", "standard", "handwritten", "handwritten", "faded", "faded",
       "tilted", "tilted", "noisy", "noisy", "blurred", "blurred",
       "heavy_lines", "heavy_lines", "small_font", "small_font",
       "mixed_font", "mixed_font", "complex", "complex"] := by
    simp only [generate_all_resumes, variations, genLoop, List.map_append,
      genInner_map_variation]
    rfl
  refine ⟨hfns, by rw [hfns]; rfl, ?_, ?_, hvar⟩
  · have h := congrArg List.length hvar
    simpa using h
  · simp only [generate_all_resumes, variations, genLoop, List.map_append,
      genInner_map_input]
    rfl

/-- An element picked by index-mod-length belongs to the (non-empty) list. -/
theorem getD_mod_mem {α : Type} (l : List α) (k : Nat) (d : α) (hl : l ≠ []) :
    l.getD (k % l.length) d ∈ l := by
  have hlen : 0 < l.length := List.length_pos.mpr hl
  have h : k % l.length < l.length := Nat.mod_lt _ hlen
  rw [List.getD_eq_getElem _ _ h]
  exact List.getElem_mem h

/-- Claim C9: every generated record's name is a surname from the 20-entry
table concatenated with a given name from one of the two 10-entry gendered
tables (selected by the coin flip), and its birth date is
`{year}年{month}月{day}日` with year in [1970, 2000], month in [1, 12] and
day in [1, 28]; moreover every such (year, month, day) combination is
attainable, with no further calendar validation. -/
theorem claim_C9 :
    (∀ s : RandState,
      ∃ (last first : String) (year month day : Nat),
        last ∈ LAST_NAMES ∧
        (first ∈ FIRST_NAMES_MALE ∨ first ∈ FIRST_NAMES_FEMALE) ∧
        1970 ≤ year ∧ year ≤ 2000 ∧ 1 ≤ month ∧ month ≤ 12 ∧ 1 ≤ day ∧ day ≤ 28 ∧
        (generate_random_resume_data s).1.name = last ++ first ∧
        (generate_random_resume_data s).1.birth_date =
          Nat.repr year ++ "年" ++ Nat.repr month ++ "月" ++ Nat.repr day ++ "日") ∧
    LAST_NAMES.length = 20 ∧
    FIRST_NAMES_MALE.length = 10 ∧
    FIRST_NAMES_FEMALE.length = 10 ∧
    (∀ year month day : Nat,
      1970 ≤ year → year ≤ 2000 → 1 ≤ month → month ≤ 12 → 1 ≤ day → day ≤ 28 →
      ∃ s : RandState,
        (generate_random_resume_data s).1.birth_date =
          Nat.repr year ++ "年" ++ Nat.repr month ++ "月" ++ Nat.repr day ++ "日") := by
  refine ⟨?_, rfl, rfl, rfl, ?_⟩
  · intro s
    refine ⟨LAST_NAMES.getD (s.natGen s.idx % LAST_NAMES.length) "", _,
      1970 + s.natGen (s.idx + 3) % 31, 1 + s.natGen (s.idx + 4) % 12,
      1 + s.natGen (s.idx + 5) % 28,
      getD_mod_mem LAST_NAMES (s.natGen s.idx) "" (by decide), ?_,
      ?_, ?_, ?_, ?_, ?_, ?_, rfl, rfl⟩
    · split
      · exact Or.inl (getD_mod_mem FIRST_NAMES_MALE _ "" (by decide))
      · exact Or.inr (getD_mod_mem FIRST_NAMES_FEMALE _ "" (by decide))
    · exact Nat.le_add_right _ _
    · have := Nat.mod_lt (s.natGen (s.idx + 3)) (show 0 < 31 by norm_num)
      omega
    · exact Nat.le_add_right _ _
    · have := Nat.mod_lt (s.natGen (s.idx + 4)) (show 0 < 12 by norm_num)
      omega
    · exact Nat.le_add_right _ _
    · have := Nat.mod_lt (s.natGen (s.idx + 5)) (show 0 < 28 by norm_num)
      omega
  · intro year month day hy1 hy2 hm1 hm2 hd1 hd2
    refine ⟨⟨fun i => if i = 3 then year - 1970 else if i = 4 then month - 1
      else if i = 5 then day - 1 else 0, fun _ => 0, 0⟩, ?_⟩
    have e : (generate_random_resume_data
        ⟨fun i => if i = 3 then year - 1970 else if i = 4 then month - 1
          else if i = 5 then day - 1 else 0, fun _ => 0, 0⟩).1.birth_date =
        Nat.repr (1970 + (year - 1970) % 31) ++ "年" ++
          Nat.repr (1 + (month - 1) % 12) ++ "月" ++
          Nat.repr (1 + (day - 1) % 28) ++ "日" := rfl
    rw [e]
    have h1 : 1970 + (year - 1970) % 31 = year := by omega
    have h2 : 1 + (month - 1) % 12 = month := by omega
    have h3 : 1 + (day - 1) % 28 = day := by omega
    rw [h1, h2, h3]

/-- Witness for claim C9: the birth date 1980年2月14日 is attainable. -/
theorem claim_C9_witness :
    (1970 ≤ 1980 ∧ 1980 ≤ 2000 ∧ 1 ≤ 2 ∧ 2 ≤ 12 ∧ 1 ≤ 14 ∧ 14 ≤ 28) ∧
    ∃ s : RandState,
      (generate_random_resume_data s).1.birth_date =
        Nat.repr 1980 ++ "年" ++ Nat.repr 2 ++ "月" ++ Nat.repr 14 ++ "日" :=
  ⟨by decide,
   claim_C9.2.2.2.2 1980 2 14 (by decide) (by decide) (by decide) (by decide)
     (by decide) (by decide)⟩

/-- Claim C10: for every preset other than tilted and complex the returned
configuration is independent of the random source; the `variation_type`
field always equals the requested preset; and every catalog invocation
advances the random source by the two uniform draws, because all ten
configurations are constructed on each call. -/
theorem claim_C10 :
    (∀ vt : VariationType, vt ≠ .TILTED → vt ≠ .COMPLEX →
      ∀ s t : RandState, (get_variation_config vt s).1 = (get_variation_config vt t).1) ∧
    (∀ (vt : VariationType) (s : RandState),
      (get_variation_config vt s).1.variation_type = vt) ∧
    (∀ (vt : VariationType) (s : RandState),
      (get_variation_config vt s).2.idx = s.idx + 2) := by
  refine ⟨?_, ?_, ?_⟩
  · intro vt h1 h2 s t
    cases vt
    case TILTED => exact absurd rfl h1
    case COMPLEX => exact absurd rfl h2
    all_goals rfl
  · intro vt s
    cases vt <;> rfl
  · intro vt s
    cases vt <;> rfl

/-- Witness for claim C10: the standard preset's configuration agrees across
two different random sources. -/
theorem claim_C10_witness :
    (VariationType.STANDARD ≠ VariationType.TILTED ∧
      VariationType.STANDARD ≠ VariationType.COMPLEX) ∧
    (get_variation_config .STANDARD stateZero).1 =
      (get_variation_config .STANDARD stateHalf).1 :=
  ⟨⟨by decide, by decide⟩,
   claim_C10.1 .STANDARD (by decide) (by decide) stateZero stateHalf⟩

/-- Splitting never returns the empty list. -/
theorem splitLines_ne_nil : ∀ l : List Char, splitLines l ≠ [] := by
  intro l
  cases l with
  | nil => simp [splitLines]
  | cons c cs =>
    simp only [splitLines]
    split
    · simp
    · split <;> simp

/-- A newline-free line splits into itself. -/
theorem splitLines_no_nl : ∀ l : List Char, Char.ofNat 10 ∉ l → splitLines l = [l] := by
  intro l
  induction l with
  | nil => intro _; rfl
  | cons c cs ih =>
    intro h
    have hc : ¬(c = Char.ofNat 10) := fun e => h (List.mem_cons.mpr (Or.inl e.symm))
    have hcs : Char.ofNat 10 ∉ cs := fun hm => h (List.mem_cons.mpr (Or.inr hm))
    simp only [splitLines, if_neg hc, ih hcs]

/-- Splitting peels off a leading newline-free line. -/
theorem splitLines_append :
    ∀ l rest : List Char, Char.ofNat 10 ∉ l →
      splitLines (l ++ Char.ofNat 10 :: rest) = l :: splitLines rest := by
  intro l
  induction l with
  | nil =>
    intro rest _
    simp [splitLines]
  | cons c cs ih =>
    intro rest h
    have hc : ¬(c = Char.ofNat 10) := fun e => h (List.mem_cons.mpr (Or.inl e.symm))
    have hcs : Char.ofNat 10 ∉ cs := fun hm => h (List.mem_cons.mpr (Or.inr hm))
    simp only [List.cons_append, splitLines, if_neg hc, List.append_eq, ih rest hcs]

/-- Stripping a label from a line that starts with it yields the rest. -/
theorem dropLabel_append : ∀ p l : List Char, dropLabel p (p ++ l) = some l := by
  intro p
  induction p with
  | nil => intro l; rfl
  | cons c cs ih =>
    intro l
    simp [dropLabel, ih]

/-- Round trip: parsing the `target` text of any record with newline-free
fields recovers the three field values. -/
theorem parseTarget_targetOf (d : ResumeData)
    (h1 : Char.ofNat 10 ∉ d.name.data) (h2 : Char.ofNat 10 ∉ d.birth_date.data)
    (h3 : Char.ofNat 10 ∉ d.address.data) :
    parseTarget (targetOf d) = some (d.name, d.birth_date, d.address) := by
  have hdata : (targetOf d).data =
      ("氏名: ".data ++ d.name.data) ++ Char.ofNat 10 ::
        (("生年月日: ".data ++ d.birth_date.data) ++ Char.ofNat 10 ::
          ("住所: ".data ++ d.address.data)) := by
    show ("氏名: " ++ d.name ++ "\n生年月日: " ++ d.birth_date ++ "\n住所: " ++ d.address).data = _
    have e1 : "\n生年月日: ".data = Char.ofNat 10 :: "生年月日: ".data := rfl
    have e2 : "\n住所: ".data = Char.ofNat 10 :: "住所: ".data := rfl
    simp [String.data_append, e1, e2, List.append_assoc]
  have hl1 : Char.ofNat 10 ∉ ("氏名: ".data ++ d.name.data) := by
    simp only [List.mem_append]
    rintro (h | h)
    · exact absurd h (by decide)
    · exact h1 h
  have hl2 : Char.ofNat 10 ∉ ("生年月日: ".data ++ d.birth_date.data) := by
    simp only [List.mem_append]
    rintro (h | h)
    · exact absurd h (by decide)
    · exact h2 h
  have hl3 : Char.ofNat 10 ∉ ("住所: ".data ++ d.address.data) := by
    simp only [List.mem_append]
    rintro (h | h)
    · exact absurd h (by decide)
    · exact h3 h
  unfold parseTarget
  rw [hdata, splitLines_append _ _ hl1, splitLines_append _ _ hl2, splitLines_no_nl _ hl3]
  simp only [dropLabel_append]

/-- The random record's fields are drawn from the static tables: name is
surname ++ given name, birth date and address are formatted from bounded
numeric draws.  Used both for claim C9 and for newline-freeness. -/
theorem resume_data_shape (s : RandState) :
    ∃ (last first : String) (year month day : Nat) (pref : String × List String)
      (city : String) (chome ban go : Nat),
      last ∈ LAST_NAMES ∧
      (first ∈ FIRST_NAMES_MALE ∨ first ∈ FIRST_NAMES_FEMALE) ∧
      1970 ≤ year ∧ year ≤ 2000 ∧ 1 ≤ month ∧ month ≤ 12 ∧ 1 ≤ day ∧ day ≤ 28 ∧
      pref ∈ PREFECTURES ∧ city ∈ pref.2 ∧
      1 ≤ chome ∧ chome ≤ 5 ∧ 1 ≤ ban ∧ ban ≤ 20 ∧ 1 ≤ go ∧ go ≤ 30 ∧
      (generate_random_resume_data s).1.name = last ++ first ∧
      (generate_random_resume_data s).1.birth_date =
        Nat.repr year ++ "年" ++ Nat.repr month ++ "月" ++ Nat.repr day ++ "日" ∧
      (generate_random_resume_data s).1.address =
        pref.1 ++ city ++ Nat.repr chome ++ "-" ++ Nat.repr ban ++ "-" ++ Nat.repr go := by
  have hprefmem : PREFECTURES.getD (s.natGen (s.idx + 6) % PREFECTURES.length) ("", []) ∈
      PREFECTURES := getD_mod_mem PREFECTURES _ ("", []) (by decide)
  have hne : ∀ p ∈ PREFECTURES, p.2 ≠ [] := by decide
  refine ⟨LAST_NAMES.getD (s.natGen s.idx % LAST_NAMES.length) "", _,
    1970 + s.natGen (s.idx + 3) % 31, 1 + s.natGen (s.idx + 4) % 12,
    1 + s.natGen (s.idx + 5) % 28,
    PREFECTURES.getD (s.natGen (s.idx + 6) % PREFECTURES.length) ("", []), _,
    1 + s.natGen (s.idx + 8) % 5, 1 + s.natGen (s.idx + 9) % 20,
    1 + s.natGen (s.idx + 10) % 30,
    getD_mod_mem LAST_NAMES (s.natGen s.idx) "" (by decide), ?_,
    ?_, ?_, ?_, ?_, ?_, ?_, hprefmem,
    getD_mod_mem _ _ "" (hne _ hprefmem),
    ?_, ?_, ?_, ?_, ?_, ?_, rfl, rfl, rfl⟩
  · split
    · exact Or.inl (getD_mod_mem FIRST_NAMES_MALE _ "" (by decide))
    · exact Or.inr (getD_mod_mem FIRST_NAMES_FEMALE _ "" (by decide))
  · exact Nat.le_add_right _ _
  · have := Nat.mod_lt (s.natGen (s.idx + 3)) (show 0 < 31 by norm_num)
    omega
  · exact Nat.le_add_right _ _
  · have := Nat.mod_lt (s.natGen (s.idx + 4)) (show 0 < 12 by norm_num)
    omega
  · exact Nat.le_add_right _ _
  · have := Nat.mod_lt (s.natGen (s.idx + 5)) (show 0 < 28 by norm_num)
    omega
  · exact Nat.le_add_right _ _
  · have := Nat.mod_lt (s.natGen (s.idx + 8)) (show 0 < 5 by norm_num)
    omega
  · exact Nat.le_add_right _ _
  · have := Nat.mod_lt (s.natGen (s.idx + 9)) (show 0 < 20 by norm_num)
    omega
  · exact Nat.le_add_right _ _
  · have := Nat.mod_lt (s.natGen (s.idx + 10)) (show 0 < 30 by norm_num)
    omega

/-- The three fields of any generated record contain no newline. -/
theorem no_nl_fields (s : RandState) :
    Char.ofNat 10 ∉ ((generate_random_resume_data s).1.name).data ∧
    Char.ofNat 10 ∉ ((generate_random_resume_data s).1.birth_date).data ∧
    Char.ofNat 10 ∉ ((generate_random_resume_data s).1.address).data := by
  obtain ⟨last, first, year, month, day, pref, city, chome, ban, go,
    hlast, hfirst, hy1, hy2, _, hm2, _, hd2, hpref, hcity, _, hc2, _, hb2, _, hg2,
    hname, hbd, haddr⟩ := resume_data_shape s
  have tabL : ∀ x ∈ LAST_NAMES, Char.ofNat 10 ∉ x.data := by decide
  have tabM : ∀ x ∈ FIRST_NAMES_MALE, Char.ofNat 10 ∉ x.data := by decide
  have tabF : ∀ x ∈ FIRST_NAMES_FEMALE, Char.ofNat 10 ∉ x.data := by decide
  have tabP : ∀ p ∈ PREFECTURES, Char.ofNat 10 ∉ p.1.data := by decide
  have tabC : ∀ p ∈ PREFECTURES, ∀ c ∈ p.2, Char.ofNat 10 ∉ c.data := by decide
  have hsmall : ∀ k, k < 31 → Char.ofNat 10 ∉ (Nat.repr k).data := by decide
  have hyear : ∀ k, k < 31 → Char.ofNat 10 ∉ (Nat.repr (1970 + k)).data := by decide
  have hyr : Char.ofNat 10 ∉ (Nat.repr year).data := by
    have e : 1970 + (year - 1970) = year := by omega
    have h := hyear (year - 1970) (by omega)
    rwa [e] at h
  refine ⟨?_, ?_, ?_⟩
  · rw [hname]
    simp only [String.data_append, List.mem_append]
    rintro (h | h)
    · exact tabL _ hlast h
    · rcases hfirst with hf | hf
      · exact tabM _ hf h
      · exact tabF _ hf h
  · rw [hbd]
    simp only [String.data_append, List.mem_append]
    rintro (((((h | h) | h) | h) | h) | h)
    · exact hyr h
    · exact absurd h (by decide)
    · exact hsmall month (by omega) h
    · exact absurd h (by decide)
    · exact hsmall day (by omega) h
    · exact absurd h (by decide)
  · rw [haddr]
    simp only [String.data_append, List.mem_append]
    rintro ((((((h | h) | h) | h) | h) | h) | h)
    · exact tabP _ hpref h
    · exact tabC _ hpref _ hcity h
    · exact hsmall chome (by omega) h
    · exact absurd h (by decide)
    · exact hsmall ban (by omega) h
    · exact absurd h (by decide)
    · exact hsmall go (by omega) h

/-- Claim C2: every generated file's manifest record carries the `target`
text `氏名: {name}\n生年月日: {birth_date}\n住所: {address}` built from the
same sampled record that is rendered, and parsing that text recovers the
record's three field values. -/
theorem claim_C2 :
    ∀ (vt : VariationType) (index : Nat) (gcs_bucket : String)
      (fontOk : String → Bool) (s : RandState),
      (genUnit vt index gcs_bucket fontOk s).2.1.target =
        targetOf (generate_random_resume_data s).1 ∧
      parseTarget ((genUnit vt index gcs_bucket fontOk s).2.1.target) =
        some ((generate_random_resume_data s).1.name,
          (generate_random_resume_data s).1.birth_date,
          (generate_random_resume_data s).1.address) := by
  intro vt index gcs_bucket fontOk s
  have h := no_nl_fields s
  refine ⟨rfl, ?_⟩
  have e : (genUnit vt index gcs_bucket fontOk s).2.1.target =
      targetOf (generate_random_resume_data s).1 := rfl
  rw [e]
  exact parseTarget_targetOf _ h.1 h.2.1 h.2.2

/-- A colour whose red component is at most 245 is not white. -/
theorem fill_ne_white {c : Color} (h : c.1 ≤ 245) : c ≠ white := by
  intro e
  rw [e] at h
  norm_num [white] at h

/-- Small specks are light gray (component in [180, 220]). -/
theorem speckDraw_fill (w h : Nat) (t : RandState) : ((speckDraw w h t).1).fill.1 ≤ 245 := by
  show 180 + t.natGen (t.idx + 2) % 41 ≤ 245
  have := Nat.mod_lt (t.natGen (t.idx + 2)) (show 0 < 41 by norm_num)
  omega

/-- Stains are near-white gray (component in [230, 245]). -/
theorem stainDraw_fill (w h : Nat) (t : RandState) : ((stainDraw w h t).1).fill.1 ≤ 245 := by
  show 230 + t.natGen (t.idx + 4) % 16 ≤ 245
  have := Nat.mod_lt (t.natGen (t.idx + 4)) (show 0 < 16 by norm_num)
  omega

/-- Every ellipse produced by a drawing loop inherits the per-draw fill
bound. -/
theorem drawLoop_fill {f : RandState → Ellipse × RandState}
    (hf : ∀ t, ((f t).1).fill.1 ≤ 245) :
    ∀ (n : Nat) (t : RandState), ∀ e ∈ (drawLoop f n t).1, e.fill.1 ≤ 245 := by
  intro n
  induction n with
  | zero => intro t e he; simp [drawLoop] at he
  | succ n ih =>
    intro t e he
    simp only [drawLoop, List.mem_cons] at he
    rcases he with he | he
    · rw [he]
      exact hf t
    · exact ih _ e he

/-- Every ellipse `_add_noise` draws has a non-white gray fill. -/
theorem noiseDraws_fill (w h : Nat) (s : RandState) :
    ∀ e ∈ (noiseDraws w h s).1, e.fill.1 ≤ 245 := by
  intro e he
  simp only [noiseDraws, List.mem_append] at he
  rcases he with he | he
  · exact drawLoop_fill (speckDraw_fill w h) _ _ e he
  · exact drawLoop_fill (stainDraw_fill w h) _ _ e he

/-- Painting an ellipse with a non-white fill keeps non-white pixels
non-white. -/
theorem drawEllipse_pix_ne_white (e : Ellipse) (img : PImage) (he : e.fill ≠ white)
    (x y : Nat) (h : img.pix x y ≠ white) : (drawEllipse e img).pix x y ≠ white := by
  unfold drawEllipse
  dsimp only
  split
  · exact he
  · exact h

/-- Folding ellipse draws keeps the canvas width. -/
theorem foldl_draw_width (L : List Ellipse) :
    ∀ img : PImage, (L.foldl (fun im e => drawEllipse e im) img).width = img.width := by
  induction L with
  | nil => intro img; rfl
  | cons e L ih =>
    intro img
    rw [List.foldl_cons, ih]
    rfl

/-- Folding ellipse draws keeps the canvas height. -/
theorem foldl_draw_height (L : List Ellipse) :
    ∀ img : PImage, (L.foldl (fun im e => drawEllipse e im) img).height = img.height := by
  induction L with
  | nil => intro img; rfl
  | cons e L ih =>
    intro img
    rw [List.foldl_cons, ih]
    rfl

/-- Folding non-white ellipse draws keeps non-white pixels non-white. -/
theorem foldl_draw_pix (L : List Ellipse) (hL : ∀ e ∈ L, e.fill.1 ≤ 245) :
    ∀ (img : PImage) (x y : Nat), img.pix x y ≠ white →
      (L.foldl (fun im e => drawEllipse e im) img).pix x y ≠ white := by
  induction L with
  | nil => intro img x y h; exact h
  | cons e L ih =>
    intro img x y h
    rw [List.foldl_cons]
    exact ih (fun a ha => hL a (List.mem_cons.mpr (Or.inr ha))) _ x y
      (drawEllipse_pix_ne_white e img (fill_ne_white (hL e (List.mem_cons_self e L))) x y h)

/-- A pixel covered by one of the drawn ellipses ends up non-white. -/
theorem foldl_draw_covered (L : List Ellipse) (hL : ∀ e ∈ L, e.fill.1 ≤ 245)
    (e : Ellipse) (heL : e ∈ L) (x y : Nat) (hcov : inEllipse e x y) :
    ∀ img : PImage, (L.foldl (fun im a => drawEllipse a im) img).pix x y ≠ white := by
  obtain ⟨l1, l2, rfl⟩ := List.append_of_mem heL
  intro img
  rw [List.foldl_append, List.foldl_cons]
  apply foldl_draw_pix l2 (fun a ha => hL a (by simp [ha]))
  show (drawEllipse e _).pix x y ≠ white
  unfold drawEllipse
  dsimp only
  rw [if_pos hcov]
  exact fill_ne_white (hL e (by simp))

/-- Drawing the noise ellipses never decreases the non-white pixel count. -/
theorem nonWhiteCount_mono (img : PImage) (L : List Ellipse)
    (hL : ∀ e ∈ L, e.fill.1 ≤ 245) :
    nonWhiteCount img ≤ nonWhiteCount (L.foldl (fun im e => drawEllipse e im) img) := by
  unfold nonWhiteCount
  rw [foldl_draw_width, foldl_draw_height]
  apply Finset.card_le_card
  apply Finset.monotone_filter_right
  intro p hp
  exact foldl_draw_pix L hL img p.1 p.2 hp

/-- Claim C5 (amended): the noise transform never decreases the count of
non-white pixels, and strictly increases it whenever at least one drawn
ellipse covers an in-bounds pixel that was white in the input.  (As stated —
a strict increase for every input image — the claim fails on an image with
no white pixels; see the counterexample.) -/
theorem claim_C5 :
    ∀ (img : PImage) (s : RandState),
      nonWhiteCount img ≤ nonWhiteCount (_add_noise img s).1 ∧
      ((∃ e ∈ (noiseDraws img.width img.height s).1, ∃ x y : Nat,
          x < img.width ∧ y < img.height ∧ inEllipse e x y ∧ img.pix x y = white) →
        nonWhiteCount img < nonWhiteCount (_add_noise img s).1) := by
  intro img s
  have hL := noiseDraws_fill img.width img.height s
  have h_add : (_add_noise img s).1 =
      ((noiseDraws img.width img.height s).1).foldl (fun im e => drawEllipse e im) img := rfl
  constructor
  · rw [h_add]
    exact nonWhiteCount_mono img _ hL
  · rintro ⟨e, heL, x, y, hx, hy, hcov, hwhite⟩
    rw [h_add]
    unfold nonWhiteCount
    rw [foldl_draw_width, foldl_draw_height]
    apply Finset.card_lt_card
    refine (Finset.ssubset_iff_of_subset (Finset.monotone_filter_right _ ?_)).mpr ?_
    · intro p hp
      exact foldl_draw_pix _ hL img p.1 p.2 hp
    refine ⟨(x, y), ?_, ?_⟩
    · rw [Finset.mem_filter]
      refine ⟨?_, ?_⟩
      · rw [Finset.mem_product]
        exact ⟨Finset.mem_range.mpr hx, Finset.mem_range.mpr hy⟩
      · exact foldl_draw_covered _ hL e heL x y hcov img
    · rw [Finset.mem_filter]
      rintro ⟨-, hne⟩
      exact hne hwhite

set_option maxRecDepth 8192 in
/-- Witness for claim C5: on the all-white 150 × 150 page with the all-zero
random source, the first speck covers the white pixel (0, 0), so the
non-white count strictly increases. -/
theorem claim_C5_witness :
    (∃ e ∈ (noiseDraws whitePage.width whitePage.height stateZero).1, ∃ x y : Nat,
      x < whitePage.width ∧ y < whitePage.height ∧ inEllipse e x y ∧
        whitePage.pix x y = white) ∧
    nonWhiteCount whitePage < nonWhiteCount (_add_noise whitePage stateZero).1 := by
  have h : ∃ e ∈ (noiseDraws whitePage.width whitePage.height stateZero).1, ∃ x y : Nat,
      x < whitePage.width ∧ y < whitePage.height ∧ inEllipse e x y ∧
        whitePage.pix x y = white :=
    ⟨⟨0, 0, 1, 1, (180, 180, 180)⟩, by decide, 0, 0, by decide, by decide, by decide, rfl⟩
  exact ⟨h, (claim_C5 whitePage stateZero).2 h⟩

set_option maxRecDepth 8192 in
/-- Counterexample to claim C5 as stated: on an all-black page the noise
transform adds no new non-white pixel, so the count does not strictly
increase. -/
theorem claim_C5_counterexample :
    ¬ nonWhiteCount blackPage < nonWhiteCount (_add_noise blackPage stateZero).1 := by
  have hL := noiseDraws_fill blackPage.width blackPage.height stateZero
  have h_add : (_add_noise blackPage stateZero).1 =
      ((noiseDraws blackPage.width blackPage.height stateZero).1).foldl
        (fun im e => drawEllipse e im) blackPage := rfl
  have hpix : ∀ x y : Nat, blackPage.pix x y ≠ white := by
    intro x y
    show (((0 : Nat), (0 : Nat), (0 : Nat)) : Color) ≠ white
    decide
  have heq : nonWhiteCount (_add_noise blackPage stateZero).1 = nonWhiteCount blackPage := by
    rw [h_add]
    unfold nonWhiteCount
    rw [foldl_draw_width, foldl_draw_height]
    refine congrArg Finset.card (Finset.filter_congr ?_)
    intro p hp
    exact iff_of_true (foldl_draw_pix _ hL blackPage p.1 p.2 (hpix p.1 p.2)) (hpix p.1 p.2)
  rw [heq]
  exact lt_irrefl _

end GenResumes
